import Mathlib

/-!
Verification development for the Raft consensus server in src/raft/src/server.rs.

The data model (RaftState, Message, Mode, Action), the message/timer/control
handlers, and the event loop are translated from the source.  The replicated
log type crate::log::RaftLog is not present under src/ (only its callers are),
so it is modelled from the specification, as marked on each of its operations.
Rust u64 arithmetic is modelled with Nat; u64 subtraction that would underflow
(a panic in a debug build) appears as Nat truncated subtraction, which is noted
where it matters.  Vec indexing is modelled with List.getD / List.set; the code
only indexes with peer < network_size, which the theorems assume where needed.
-/

namespace Raft

/-- A log entry: a term together with an opaque command (the program
instantiates commands as chars). Mirrors LogEntry in crate::log. -/
structure LogEntry where
  term : Nat
  command : Char
deriving DecidableEq, Repr

/-- The sentinel entry for index 0 (spec: get(0) returns a sentinel with
term = 0). -/
def sentinelEntry : LogEntry := { term := 0, command := Char.ofNat 0 }

/-- Modelled from the spec: the replicated log type crate::log::RaftLog is not
under src/, so it is taken from spec sections 3 and 4.1: an ordered sequence of
LogEntry with 1-based indexing. -/
structure RaftLog where
  entries : List LogEntry
deriving DecidableEq, Repr

/-- Modelled from the spec: length() is the current entry count. -/
def RaftLog.len (l : RaftLog) : Nat := l.entries.length

/-- Modelled from the spec: get(i) returns the entry at 1-based index i; get(0)
returns a sentinel with term 0.  (Out-of-range reads are unspecified and never
exercised by the code on well-formed states; they also yield the sentinel.) -/
def RaftLog.get (l : RaftLog) (i : Nat) : LogEntry :=
  (sentinelEntry :: l.entries).getD i sentinelEntry

/-- Modelled from the spec (4.1): append(prev_index, prev_term, new_entries)
succeeds iff prev_index == 0 or (prev_index ≤ length and the entry at
prev_index has term prev_term); on success the log equals the first prev_index
existing entries followed by new_entries (trailing entries beyond are
discarded); on failure (none) the log is unchanged. -/
def RaftLog.append_entries (l : RaftLog) (prev_index prev_term : Nat)
    (new_entries : List LogEntry) : Option RaftLog :=
  if prev_index = 0 ∨ (prev_index ≤ l.len ∧ (l.get prev_index).term = prev_term) then
    some ⟨l.entries.take prev_index ++ new_entries⟩
  else
    none

/-- Modelled from the spec (4.1): slice(from_index..) returns the entries at
1-based indices from_index through length. -/
def RaftLog.slice (l : RaftLog) (from_index : Nat) : List LogEntry :=
  l.entries.drop (from_index - 1)

/-- The current mode of the server (source enum Mode). -/
inductive Mode where
  | Follower
  | Candidate
  | Leader
deriving DecidableEq, Repr

/-- Source struct AppendEntriesReq. -/
structure AppendEntriesReq where
  term : Nat
  leader : Nat
  prev_log_index : Nat
  prev_log_term : Nat
  entries : List LogEntry
  leader_commit : Nat
deriving DecidableEq, Repr

/-- Source struct AppendEntriesRep. -/
structure AppendEntriesRep where
  term : Nat
  next_index : Nat
  success : Bool
deriving DecidableEq, Repr

/-- Source struct RequestVoteReq. -/
structure RequestVoteReq where
  term : Nat
  candidate_id : Nat
  last_log_index : Nat
  last_log_term : Nat
deriving DecidableEq, Repr

/-- Source struct RequestVoteRep. -/
structure RequestVoteRep where
  term : Nat
  vote_granted : Bool
deriving DecidableEq, Repr

/-- Messages transferred between Raft nodes (source enum Message). -/
inductive Message where
  | AppendEntriesReq (m : Raft.AppendEntriesReq)
  | AppendEntriesRep (m : Raft.AppendEntriesRep)
  | RequestVoteReq (m : Raft.RequestVoteReq)
  | RequestVoteRep (m : Raft.RequestVoteRep)
deriving DecidableEq, Repr

/-- Raft-related state of the server (source struct RaftState). -/
structure RaftState where
  node_id : Nat
  network_size : Nat
  mode : Mode
  current_term : Nat
  current_leader : Option Nat
  voted_for : Option Nat
  log : RaftLog
  commit_index : Nat
  last_applied : Nat
  next_index : List Nat
  match_index : List Nat
deriving DecidableEq, Repr

/-- Source enum Action: the changes an event handler requests of the
event loop. -/
inductive Action where
  | SetElectionTimer
  | StopElectionTimer
  | SetHeartbeatTimer (peer : Nat)
  | StopHeartbeatTimers
  | SendTo (peer : Nat) (message : Message)
deriving DecidableEq, Repr

/-- The ways a handler can fail.  In the source these are failure::Error values
propagated with ?, or panics (assert!/unreachable!); the event loop unwraps
handler results, so any of these terminates the task. -/
inductive Failure where
  | SerializationError
  | AppendMismatch
  | AssertFailed
  | Unreachable
deriving DecidableEq, Repr

/-- Source free fn send_append_entries (the pure, Actions-emitting version at
the bottom of server.rs).  It does not modify the state; it emits a SendTo of
an AppendEntriesReq built from next_index[peer], followed by a heartbeat-timer
reset for that peer. -/
def send_append_entries (state : RaftState) (peer : Nat) : List Action :=
  let prev_log_index := state.next_index.getD peer 0 - 1
  let prev_log_term := if prev_log_index > 1 then (state.log.get prev_log_index).term else 0
  let message := Message.AppendEntriesReq
    { term := state.current_term
      leader := state.node_id
      prev_log_index := prev_log_index
      prev_log_term := prev_log_term
      entries := state.log.slice (prev_log_index + 1)
      leader_commit := state.commit_index }
  [Action.SendTo peer message, Action.SetHeartbeatTimer peer]

/-- Source free fn change_mode (the pure, Actions-emitting version).  The
source asserts old_mode != new_mode; that assert is the AssertFailed error
here.  The Candidate arm of the source has its start-election call commented
out (a TODO), so it emits nothing beyond the tear-down actions. -/
def change_mode (state : RaftState) (new_mode : Mode) :
    Except Failure (RaftState × List Action) :=
  let old_mode := state.mode
  if old_mode = new_mode then
    .error .AssertFailed
  else
    let state1 := { state with mode := new_mode }
    let down : List Action :=
      match old_mode with
      | .Follower => [Action.StopElectionTimer]
      | .Candidate => [Action.StopElectionTimer]
      | .Leader => [Action.StopHeartbeatTimers]
    match new_mode with
    | .Follower => .ok (state1, down ++ [Action.SetElectionTimer])
    | .Candidate => .ok (state1, down)
    | .Leader =>
        let state2 := { state1 with
          current_leader := some state1.node_id
          next_index := (List.range state1.network_size).foldl
            (fun a p => a.set p (state1.log.len + 1)) state1.next_index
          match_index := (List.range state1.network_size).foldl
            (fun a p => a.set p 0) state1.match_index }
        let sends := (List.range state2.network_size).flatMap
          (fun peer => send_append_entries state2 peer)
        .ok (state2, down ++ sends)

/-- Source free fn handle_append_entries_rep.  Non-leaders ignore the reply.
On success the peer's next_index/match_index are updated from the reply (the
u64 subtraction next_index - 1 is Nat subtraction here; the source would panic
in a debug build when next_index = 0).  On failure with a higher term the node
steps down; otherwise next_index is decremented (floored at 1, capped at the
reply's next_index) and the entries are re-sent. -/
def handle_append_entries_rep (state : RaftState) (peer : Nat)
    (message : AppendEntriesRep) : Except Failure (RaftState × List Action) :=
  if state.mode ≠ Mode.Leader then
    .ok (state, [])
  else if message.success then
    .ok ({ state with
      next_index := state.next_index.set peer message.next_index
      match_index := state.match_index.set peer (message.next_index - 1) }, [])
  else if message.term > state.current_term then
    change_mode state Mode.Follower
  else
    let lowered := max 1 (min (state.next_index.getD peer 0 - 1) message.next_index)
    let state1 := { state with next_index := state.next_index.set peer lowered }
    .ok (state1, send_append_entries state1 peer)

/-- Control messages sent to the background task (source enum Control).  The
cfg(test)-only GetState/SetState variants are not part of the public interface
and are omitted. -/
inductive Control where
  | Stop
  | Add (item : Char)
deriving DecidableEq, Repr

/-- A Timer event scheduled in the DelayQueue (source enum Timer). -/
inductive Timer where
  | FollowerUpdate (node_id : Nat)
  | CallElection
deriving DecidableEq, Repr

/-- The background task RaftServerInner.  The tokio DelayQueue is modelled by
counts of queued timers per kind (heartbeatQueued per peer, electionQueued),
since only which timers are pending - not their firing times - matters to the
claims; heartbeat_delay / election_timeout model the Option of delay_queue::Key
fields as outstanding-ness flags.  The network node is modelled by the `sent`
transcript: send_to serializes and hands the message to the node, recorded
here in order.  node_id and network_size live in `state`, which the source
initializes to the node's values. -/
structure ServerInner where
  heartbeat_delay : List Bool
  heartbeatQueued : List Nat
  election_timeout : Bool
  electionQueued : Nat
  state : RaftState
  sent : List (Nat × Message)
deriving DecidableEq, Repr

/-- Source fn stop_election_timeout: take the key and remove it from the
queue. -/
def ServerInner.stop_election_timeout (s : ServerInner) : ServerInner :=
  if s.election_timeout then
    { s with election_timeout := false, electionQueued := s.electionQueued - 1 }
  else
    s

/-- Source fn start_election_timeout: insert a fresh CallElection timer and
overwrite the stored key.  Note the source does not remove an existing timer
first, so a previously queued timer can remain queued with its key dropped. -/
def ServerInner.start_election_timeout (s : ServerInner) : ServerInner :=
  { s with election_timeout := true, electionQueued := s.electionQueued + 1 }

/-- Source fn send_to: serialize and send over the network node. -/
def ServerInner.send_to (s : ServerInner) (peer : Nat) (message : Message) : ServerInner :=
  { s with sent := s.sent ++ [(peer, message)] }

/-- Source async fn send_append_entries (the method version): build and send
the AppendEntriesReq for this peer, then reset the peer's heartbeat timer. -/
def ServerInner.send_append_entries (s : ServerInner) (peer : Nat) : ServerInner :=
  let prev_log_index := s.state.next_index.getD peer 0 - 1
  let prev_log_term :=
    if prev_log_index > 1 then (s.state.log.get prev_log_index).term else 0
  let message := Message.AppendEntriesReq
    { term := s.state.current_term
      leader := s.state.node_id
      prev_log_index := prev_log_index
      prev_log_term := prev_log_term
      entries := s.state.log.slice (prev_log_index + 1)
      leader_commit := s.state.commit_index }
  let s1 := s.send_to peer message
  let s2 :=
    if s1.heartbeat_delay.getD peer false then
      { s1 with heartbeatQueued :=
          s1.heartbeatQueued.set peer (s1.heartbeatQueued.getD peer 0 - 1) }
    else
      s1
  { s2 with
    heartbeat_delay := s2.heartbeat_delay.set peer true
    heartbeatQueued := s2.heartbeatQueued.set peer (s2.heartbeatQueued.getD peer 0 + 1) }

/-- Source async fn start_election: assert Candidate mode, bump the term, vote
for self, broadcast RequestVoteReq to every node, restart the election
timeout. -/
def ServerInner.start_election (s : ServerInner) : Except Failure ServerInner :=
  if s.state.mode ≠ Mode.Candidate then
    .error .AssertFailed
  else
    let node_id := s.state.node_id
    let s1 := { s with state := { s.state with
      current_term := s.state.current_term + 1
      voted_for := some node_id } }
    let message := Message.RequestVoteReq
      { term := s1.state.current_term
        candidate_id := node_id
        last_log_index := s1.state.log.len
        last_log_term := (s1.state.log.get s1.state.log.len).term }
    let s2 := (List.range s1.state.network_size).foldl
      (fun acc peer => acc.send_to peer message) s1
    .ok s2.start_election_timeout

/-- Source async fn change_mode (the method version): assert the mode changes,
tear down the old mode's timers, then set up the new mode. -/
def ServerInner.change_mode (s : ServerInner) (new_mode : Mode) :
    Except Failure ServerInner :=
  let old_mode := s.state.mode
  if old_mode = new_mode then
    .error .AssertFailed
  else
    let s1 := { s with state := { s.state with mode := new_mode } }
    let s2 :=
      match old_mode with
      | .Follower => s1.stop_election_timeout
      | .Candidate => s1.stop_election_timeout
      | .Leader =>
          { s1 with
            heartbeatQueued := List.zipWith
              (fun (f : Bool) (q : Nat) => if f then q - 1 else q) s1.heartbeat_delay s1.heartbeatQueued
            heartbeat_delay := s1.heartbeat_delay.map (fun _ => false) }
    match new_mode with
    | .Follower => .ok s2.start_election_timeout
    | .Candidate => s2.start_election
    | .Leader =>
        let st := s2.state
        let st1 := { st with
          current_leader := some st.node_id
          next_index := (List.range st.network_size).foldl
            (fun a p => a.set p (st.log.len + 1)) st.next_index
          match_index := (List.range st.network_size).foldl
            (fun a p => a.set p 0) st.match_index }
        let s3 := { s2 with state := st1 }
        .ok ((List.range st1.network_size).foldl
          (fun acc peer => acc.send_append_entries peer) s3)

/-- Source fn execute_actions, one action at a time. -/
def ServerInner.execute_action (s : ServerInner) (a : Action) : ServerInner :=
  match a with
  | .SetElectionTimer => s.stop_election_timeout.start_election_timeout
  | .StopElectionTimer => s.stop_election_timeout
  | .SetHeartbeatTimer peer =>
      let s1 :=
        if s.heartbeat_delay.getD peer false then
          { s with
            heartbeat_delay := s.heartbeat_delay.set peer false
            heartbeatQueued := s.heartbeatQueued.set peer (s.heartbeatQueued.getD peer 0 - 1) }
        else
          s
      { s1 with
        heartbeat_delay := s1.heartbeat_delay.set peer true
        heartbeatQueued := s1.heartbeatQueued.set peer (s1.heartbeatQueued.getD peer 0 + 1) }
  | .StopHeartbeatTimers =>
      { s with
        heartbeatQueued := List.zipWith
          (fun (f : Bool) (q : Nat) => if f then q - 1 else q) s.heartbeat_delay s.heartbeatQueued
        heartbeat_delay := s.heartbeat_delay.map (fun _ => false) }
  | .SendTo peer message => s.send_to peer message

/-- Source fn execute_actions. -/
def ServerInner.execute_actions (s : ServerInner) (actions : List Action) : ServerInner :=
  actions.foldl ServerInner.execute_action s

/-- Source async fn handle_message.  The inbound bytes are modelled by their
deserialization result (Modelled from the spec: the serde_json wire format is
external; spec section 6 requires serialize/deserialize to be a bijection
between message values and byte sequences, so a message event carries either
the decoded Message or none for bytes outside the bijection's image, which in
the source makes serde_json::from_slice fail and the ? propagate the error). -/
def ServerInner.handle_message (s : ServerInner) (peer : Nat) (msg : Option Message) :
    Except Failure ServerInner :=
  match msg with
  | none => .error .SerializationError
  | some (Message.AppendEntriesReq m) =>
      if s.state.mode = Mode.Leader then
        -- leaders don't respond to this message
        .ok s
      else
        -- a follower resets its election timeout on hearing from a leader
        let s1 := if s.state.mode = Mode.Follower then s.start_election_timeout else s
        -- reject if term < current_term
        let success0 : Bool := decide (s1.state.current_term ≤ m.term)
        -- reject if the log does not apply cleanly
        let res : Bool × ServerInner :=
          if success0 then
            match s1.state.log.append_entries m.prev_log_index m.prev_log_term m.entries with
            | some log2 => (true, { s1 with state := { s1.state with log := log2 } })
            | none => (false, s1)
          else
            (false, s1)
        let success := res.1
        let s2 := res.2
        let step3 : Except Failure ServerInner :=
          if success then
            match (if s2.state.mode = Mode.Candidate then s2.change_mode Mode.Follower
                   else .ok s2) with
            | .error e => .error e
            | .ok s3 =>
                let st := s3.state
                let st2 := { st with
                  commit_index :=
                    if m.leader_commit > st.commit_index then min m.leader_commit st.log.len
                    else st.commit_index
                  current_term := m.term
                  current_leader := some m.leader }
                .ok { s3 with state := st2 }
          else
            .ok s2
        match step3 with
        | .error e => .error e
        | .ok s4 =>
            .ok (s4.send_to peer (Message.AppendEntriesRep
              { term := s4.state.current_term
                success := success
                next_index := s4.state.log.len + 1 }))
  | some (Message.AppendEntriesRep m) =>
      match handle_append_entries_rep s.state peer m with
      | .error e => .error e
      | .ok (state2, actions) =>
          .ok (ServerInner.execute_actions { s with state := state2 } actions)
  | some (Message.RequestVoteReq m) =>
      let vote_granted0 := true
      let vote_granted1 :=
        if m.term < s.state.current_term then false else vote_granted0
      let vote_granted2 :=
        if vote_granted1 then
          match s.state.voted_for with
          | some node_id => if m.candidate_id ≠ node_id then false else vote_granted1
          | none => vote_granted1
        else
          vote_granted1
      let vote_granted :=
        if vote_granted2 then
          let receiver_last_log_index := s.state.log.len
          let receiver_last_log_term := (s.state.log.get receiver_last_log_index).term
          if m.last_log_term < receiver_last_log_term then false
          else if m.last_log_term = receiver_last_log_term then
            if m.last_log_index < receiver_last_log_index then false else vote_granted2
          else
            vote_granted2
        else
          vote_granted2
      .ok (s.send_to m.candidate_id (Message.RequestVoteRep
        { term := s.state.current_term, vote_granted := vote_granted }))
  | some (Message.RequestVoteRep _) =>
      .ok s

/-- Source async fn handle_timer.  The fired timer was already popped from the
DelayQueue by timers.next(); the handler clears the stored key, then acts. -/
def ServerInner.handle_timer (s : ServerInner) (t : Timer) : Except Failure ServerInner :=
  match t with
  | .FollowerUpdate node_id =>
      let s1 := { s with heartbeat_delay := s.heartbeat_delay.set node_id false }
      .ok (s1.send_append_entries node_id)
  | .CallElection =>
      let s1 := { s with election_timeout := false }
      match s1.state.mode with
      | .Follower => s1.change_mode Mode.Candidate
      | .Candidate => s1.start_election
      | .Leader => .error .Unreachable

/-- Source async fn handle_control; returns (should_stop, new server). -/
def ServerInner.handle_control (s : ServerInner) (c : Control) :
    Except Failure (Bool × ServerInner) :=
  match c with
  | .Stop => .ok (true, s)
  | .Add item =>
      if s.state.mode ≠ Mode.Leader then
        .ok (false, s)
      else
        let term := s.state.current_term
        let entry : LogEntry := { term := term, command := item }
        let prev_log_index := s.state.log.len
        let prev_log_term :=
          if prev_log_index > 1 then (s.state.log.get prev_log_index).term else 0
        -- the source comment says this append will always succeed; on a
        -- mismatch the ? propagates the error to the event loop's unwrap
        match s.state.log.append_entries prev_log_index prev_log_term [entry] with
        | none => .error .AppendMismatch
        | some log2 =>
            let s1 := { s with state := { s.state with log := log2 } }
            .ok (false, (List.range s1.state.network_size).foldl
              (fun acc peer => acc.send_append_entries peer) s1)

/-- An event as selected by one iteration of the run loop: a control message,
an inbound network message (carrying its deserialization result), or an
expired timer. -/
inductive Event where
  | Ctl (c : Control)
  | Msg (peer : Nat) (msg : Option Message)
  | Tmr (t : Timer)
deriving DecidableEq, Repr

/-- The result of one run-loop iteration: continue with a new state, exit the
loop (Control::Stop), or panic (the source unwraps every handler result). -/
inductive Outcome where
  | Continue (s : ServerInner)
  | Stopped (s : ServerInner)
  | Panicked (f : Failure)
deriving DecidableEq, Repr

/-- timers.next() pops the expired timer from the DelayQueue before the
handler runs. -/
def popTimer (s : ServerInner) (t : Timer) : ServerInner :=
  match t with
  | .CallElection => { s with electionQueued := s.electionQueued - 1 }
  | .FollowerUpdate p =>
      { s with heartbeatQueued := s.heartbeatQueued.set p (s.heartbeatQueued.getD p 0 - 1) }

/-- A timer event can only be selected when such a timer is actually queued;
control and message events can always arrive. -/
def fireable (s : ServerInner) : Event → Prop
  | .Tmr .CallElection => 0 < s.electionQueued
  | .Tmr (.FollowerUpdate p) => 0 < s.heartbeatQueued.getD p 0
  | _ => True

/-- One iteration of the source run loop (tokio::select! + unwrap of the
chosen handler's result). -/
def stepFn (s : ServerInner) : Event → Outcome
  | .Ctl c =>
      match s.handle_control c with
      | .error f => .Panicked f
      | .ok (true, s2) => .Stopped s2
      | .ok (false, s2) => .Continue s2
  | .Msg peer msg =>
      match s.handle_message peer msg with
      | .error f => .Panicked f
      | .ok s2 => .Continue s2
  | .Tmr t =>
      match (popTimer s t).handle_timer t with
      | .error f => .Panicked f
      | .ok s2 => .Continue s2

/-- The server as built by RaftServer::new: Follower at term 0 with an empty
log, no timers queued. -/
def initialServer (node_id network_size : Nat) : ServerInner :=
  { heartbeat_delay := List.replicate network_size false
    heartbeatQueued := List.replicate network_size 0
    election_timeout := false
    electionQueued := 0
    sent := []
    state :=
      { node_id := node_id
        network_size := network_size
        mode := Mode.Follower
        current_term := 0
        current_leader := none
        voted_for := none
        log := ⟨[]⟩
        commit_index := 0
        last_applied := 0
        next_index := List.replicate network_size 1
        match_index := List.replicate network_size 0 } }

/-- Run a list of events from a state, stopping at the first non-Continue
outcome. -/
def runEvents (s : ServerInner) : List Event → Outcome
  | [] => .Continue s
  | e :: rest =>
      match stepFn s e with
      | .Continue s2 => runEvents s2 rest
      | o => o

/-- The states reachable through the public interface (network messages,
timer expirations, Stop/Add control messages) from the initial server. -/
inductive Reach (node_id network_size : Nat) : ServerInner → Prop where
  | init : Reach node_id network_size (initialServer node_id network_size)
  | step {s s2 : ServerInner} {e : Event} :
      Reach node_id network_size s → fireable s e →
      stepFn s e = Outcome.Continue s2 → Reach node_id network_size s2

/-- The per-peer leader bookkeeping invariant of the spec: for every peer p,
match_index[p] < next_index[p] ≤ log.length() + 1. -/
def leaderInvariant (st : RaftState) : Prop :=
  ∀ p, p < st.network_size →
    st.match_index.getD p 0 < st.next_index.getD p 0 ∧
    st.next_index.getD p 0 ≤ st.log.len + 1

/-- A follower that has already voted in its current term. -/
def c1_server : ServerInner :=
  { initialServer 0 2 with
    state := { (initialServer 0 2).state with voted_for := some 0 } }

/-- A node in Leader mode at term 0. -/
def c1_leader : ServerInner :=
  { initialServer 0 2 with
    state := { (initialServer 0 2).state with mode := Mode.Leader } }

/-- An AppendEntriesReq whose term 5 exceeds both nodes' current_term 0. -/
def c1_msg : Message :=
  Message.AppendEntriesReq
    { term := 5, leader := 1, prev_log_index := 0, prev_log_term := 0
      entries := [], leader_commit := 0 }

/-- A leader of a 3-node cluster at term 1 with one entry of its own term. -/
def c2_state : RaftState :=
  { node_id := 0, network_size := 3, mode := Mode.Leader, current_term := 1
    current_leader := some 0, voted_for := some 0
    log := ⟨[⟨1, 'a'⟩]⟩, commit_index := 0, last_applied := 0
    next_index := [2, 2, 2], match_index := [1, 0, 1] }

/-- A successful replication acknowledgement from peer 1. -/
def c2_msg : AppendEntriesRep := { term := 1, next_index := 2, success := true }

/-- Two AppendEntriesReq deliveries: the first replicates two entries and
raises commit_index to 2; the second is an empty-entries message with
prev_log_index = 0 and leader_commit = 0, whose successful append truncates
the whole log while commit_index stays 2. -/
def c5_events : List Event :=
  [Event.Msg 1 (some (Message.AppendEntriesReq
      { term := 1, leader := 1, prev_log_index := 0, prev_log_term := 0
        entries := [⟨1, 'a'⟩, ⟨1, 'b'⟩], leader_commit := 2 })),
   Event.Msg 1 (some (Message.AppendEntriesReq
      { term := 1, leader := 1, prev_log_index := 0, prev_log_term := 0
        entries := [], leader_commit := 0 }))]

/-- The follower of the spec's follower-replicate scenario: term 5, three
entries, commit_index 2. -/
def c6_server : ServerInner :=
  { initialServer 0 2 with
    state := { (initialServer 0 2).state with
      current_term := 5
      log := ⟨[⟨1, 'a'⟩, ⟨3, 'b'⟩, ⟨5, 'c'⟩]⟩
      commit_index := 2 } }

/-- The AppendEntriesReq of the follower-replicate scenario. -/
def c6_msg : AppendEntriesReq :=
  { term := 6, leader := 1, prev_log_index := 3, prev_log_term := 5
    entries := [⟨5, 'x'⟩, ⟨6, 'y'⟩], leader_commit := 3 }

/-- The log after the follower-replicate append. -/
def c6_log2 : RaftLog := ⟨[⟨1, 'a'⟩, ⟨3, 'b'⟩, ⟨5, 'c'⟩, ⟨5, 'x'⟩, ⟨6, 'y'⟩]⟩

/-- A leader at term 1 whose log holds exactly one entry, of term 1 - the
state reached by a leader elected at term 1 that has accepted one command. -/
def c7_server : ServerInner :=
  { initialServer 0 2 with
    state := { (initialServer 0 2).state with
      mode := Mode.Leader, current_term := 1, current_leader := some 0
      log := ⟨[⟨1, 'x'⟩]⟩ } }

/-- A freshly initialized leader of a 2-node cluster: next_index = [1,1],
match_index = [0,0], satisfying the leader bookkeeping invariant. -/
def c8_state : RaftState :=
  { node_id := 0, network_size := 2, mode := Mode.Leader, current_term := 0
    current_leader := some 0, voted_for := none
    log := ⟨[]⟩, commit_index := 0, last_applied := 0
    next_index := [1, 1], match_index := [0, 0] }

/-- A success reply carrying next_index = 0, a value an honest peer never
sends (its log length plus one is at least 1). -/
def c8_msg : AppendEntriesRep := { term := 0, next_index := 0, success := true }

/-- A well-formed success reply for the preserved-invariant witness. -/
def c8w_msg : AppendEntriesRep := { term := 0, next_index := 1, success := true }

/-- A vote request from candidate 1 at term 1 with an empty-log position,
at least as up-to-date as the initial node's empty log. -/
def c4_msg : RequestVoteReq :=
  { term := 1, candidate_id := 1, last_log_index := 0, last_log_term := 0 }

/-!  Helper lemmas about list access and about which parts of the server the
mechanical operations (sending, timer bookkeeping) leave untouched. -/

/-- Setting an in-range position and reading it back with getD yields the new
value. -/
theorem getD_set_self : ∀ (l : List Nat) (i v d : Nat), i < l.length →
    (l.set i v).getD i d = v
  | [], i, _, _, h => absurd h (Nat.not_lt_zero i)
  | _ :: _, 0, _, _, _ => rfl
  | _ :: l, i + 1, v, d, h => getD_set_self l i v d (Nat.lt_of_succ_lt_succ h)

/-- Reading with getD at a position other than the one set is unchanged. -/
theorem getD_set_ne : ∀ (l : List Nat) (i p v d : Nat), i ≠ p →
    (l.set i v).getD p d = l.getD p d
  | [], _, _, _, _, _ => rfl
  | _ :: _, 0, 0, _, _, h => absurd rfl h
  | _ :: _, 0, _ + 1, _, _, _ => rfl
  | _ :: _, _ + 1, 0, _, _, _ => rfl
  | _ :: l, i + 1, p + 1, v, d, h =>
      getD_set_ne l i p v d (fun hh => h (by rw [hh]))

theorem state_send_to (s : ServerInner) (p : Nat) (m : Message) :
    (s.send_to p m).state = s.state := rfl

theorem sent_start_election_timeout (s : ServerInner) :
    s.start_election_timeout.sent = s.sent := rfl

theorem state_start_election_timeout (s : ServerInner) :
    s.start_election_timeout.state = s.state := rfl

theorem state_stop_election_timeout (s : ServerInner) :
    s.stop_election_timeout.state = s.state := by
  unfold ServerInner.stop_election_timeout
  split <;> rfl

theorem sent_stop_election_timeout (s : ServerInner) :
    s.stop_election_timeout.sent = s.sent := by
  unfold ServerInner.stop_election_timeout
  split <;> rfl

theorem state_send_append_entries (s : ServerInner) (p : Nat) :
    (s.send_append_entries p).state = s.state := by
  unfold ServerInner.send_append_entries ServerInner.send_to
  dsimp only
  split <;> rfl

theorem state_foldl_send_to (l : List Nat) (msg : Message) :
    ∀ s : ServerInner, (l.foldl (fun acc p => acc.send_to p msg) s).state = s.state := by
  induction l with
  | nil => intro s; rfl
  | cons a l ih => intro s; rw [List.foldl_cons, ih, state_send_to]

theorem state_foldl_send_append (l : List Nat) :
    ∀ s : ServerInner, (l.foldl (fun acc p => acc.send_append_entries p) s).state = s.state := by
  induction l with
  | nil => intro s; rfl
  | cons a l ih => intro s; rw [List.foldl_cons, ih, state_send_append_entries]

theorem state_popTimer (s : ServerInner) (t : Timer) : (popTimer s t).state = s.state := by
  cases t <;> rfl

/-- Claim C1: on receipt of any message whose term is greater than
current_term, the node is claimed to set current_term to that term, clear
voted_for, transition to Follower and clear current_leader before any
handler-specific logic.  The code does none of this as a universal rule: a
follower that accepts an AppendEntriesReq of term 5 adopts the term but keeps
its stale vote, and a Leader ignores such a message entirely, leaving even
current_term untouched. -/
theorem c1_no_universal_term_update :
    (match c1_server.handle_message 1 (some c1_msg) with
     | .ok s2 => s2.state.current_term = 5 ∧ s2.state.voted_for = some 0
     | .error _ => False) ∧
    c1_leader.handle_message 1 (some c1_msg) = Except.ok c1_leader := by
  exact ⟨⟨rfl, rfl⟩, rfl⟩

/-- Claim C2: a leader that receives a successful AppendEntriesRep is claimed
to update next_index/match_index and then advance commit_index to the largest
majority-replicated N of its own term.  The code performs the index updates
but never reevaluates commit_index: here N = 1 exceeds commit_index 0, has
the leader's current term, and is covered by all three match_index entries
(majority 2 of 3), yet commit_index stays 0. -/
theorem c2_commit_index_not_reevaluated :
    (match handle_append_entries_rep c2_state 1 c2_msg with
     | .ok (st2, acts) =>
         st2.next_index = [2, 2, 2] ∧ st2.match_index = [1, 1, 1] ∧
         acts = [] ∧
         st2.commit_index = 0 ∧
         0 < 1 ∧ (st2.log.get 1).term = st2.current_term ∧
         st2.match_index.countP (fun mi => decide (1 ≤ mi)) ≥ st2.network_size / 2 + 1
     | .error _ => False) := by
  exact ⟨rfl, rfl, rfl, rfl, Nat.zero_lt_one, rfl, by decide⟩

/-- Claim C3: a Candidate receiving RequestVoteRep with vote_granted = true at
its current term is claimed to record the vote and, on majority, become
Leader.  The code's RequestVoteRep arm is literally `Ok(())` (marked
`TODO: XXX HERE`): every RequestVoteRep, whatever its content and whatever the
node's mode, leaves the server completely unchanged and emits nothing. -/
theorem c3_request_vote_rep_ignored (s : ServerInner) (peer : Nat) (m : RequestVoteRep) :
    s.handle_message peer (some (Message.RequestVoteRep m)) = Except.ok s := rfl

/-- Claim C4: the grant condition holds, but granting is claimed to set
voted_for = candidate_id.  The code grants the vote to candidate 1 (reply
{ term = 0, vote_granted = true }) while leaving the state - including
voted_for = None - completely unchanged. -/
theorem c4_vote_granted_without_recording :
    (match (initialServer 0 2).handle_message 1 (some (Message.RequestVoteReq c4_msg)) with
     | .ok s2 =>
         s2.sent = [(1, Message.RequestVoteRep { term := 0, vote_granted := true })] ∧
         s2.state.voted_for = none ∧
         s2.state = (initialServer 0 2).state
     | .error _ => False) := by
  exact ⟨rfl, rfl, rfl⟩

/-- Claim C5: last_applied ≤ commit_index ≤ log.length() is claimed to hold
after every handler, starting from the initial state.  Two AppendEntriesReq
deliveries refute it: the first raises commit_index to 2; the second succeeds
with prev_log_index = 0 and empty entries, truncating the log to length 0,
and since its leader_commit (0) is not greater than commit_index, commit_index
stays 2 > 0 = log.length(). -/
theorem c5_commit_index_exceeds_log_length :
    (match runEvents (initialServer 0 2) c5_events with
     | .Continue s =>
         s.state.commit_index = 2 ∧ s.state.log.len = 0 ∧
         ¬ (s.state.commit_index ≤ s.state.log.len)
     | _ => False) := by
  exact ⟨rfl, rfl, by decide⟩

/-- Claim C7: a leader submit is claimed to append {current_term, C} at the
tail for every prior log content.  With exactly one entry of term 1, the
handler computes prev_log_index = 1 but (because of the `prev_log_index > 1`
guard) prev_log_term = 0, so the append mismatches (get(1).term = 1 ≠ 0):
handle_control returns an error - despite the source comment "this will
always succeed" - and the run loop's unwrap panics; nothing is appended or
sent. -/
theorem c7_leader_add_mismatch :
    c7_server.handle_control (Control.Add 'y') = Except.error Failure.AppendMismatch ∧
    stepFn c7_server (Event.Ctl (Control.Add 'y')) = Outcome.Panicked Failure.AppendMismatch := by
  exact ⟨rfl, rfl⟩

/-- Claim C8 counterexample: a Leader whose bookkeeping satisfies the claimed
invariant receives a success reply carrying next_index = 0; the handler sets
next_index[1] = 0 and match_index[1] = 0 - 1 (a u64 underflow in the source,
truncated subtraction here), and the invariant match_index[1] < next_index[1]
fails afterwards. -/
theorem c8_arbitrary_next_index_breaks_invariant :
    leaderInvariant c8_state ∧
    (match handle_append_entries_rep c8_state 1 c8_msg with
     | .ok (st2, _) => ¬ leaderInvariant st2
     | .error _ => False) := by
  constructor
  · unfold leaderInvariant
    decide
  · intro hinv
    exact absurd ((hinv 1 (by decide)).1) (by decide)

/-- Claim C9 counterexample: a malformed inbound message (bytes outside the
serializer's image) makes handle_message return a SerializationError, which
the run loop unwraps: the task panics instead of logging and dropping the
message. -/
theorem c9_malformed_message_panics :
    stepFn (initialServer 0 2) (Event.Msg 1 none) =
      Outcome.Panicked Failure.SerializationError := rfl

/-- Claim C9 (amended): from any state, a malformed inbound network message
terminates the event loop with a serialization panic; per-message
serialization errors are not isolated. -/
theorem c9_malformed_message_always_panics (s : ServerInner) (peer : Nat) :
    stepFn s (Event.Msg peer none) = Outcome.Panicked Failure.SerializationError := rfl

/-- Claim C6: a non-Leader that receives an AppendEntriesReq with
term ≥ current_term whose append succeeds sets
commit_index = min(leader_commit, log.length()) when leader_commit exceeds it,
adopts the message's term and leader, and replies
{ term = current_term, success = true, next_index = log.length() + 1 }. -/
theorem c6_append_entries_success (s : ServerInner) (peer : Nat)
    (m : AppendEntriesReq) (log2 : RaftLog)
    (hmode : s.state.mode ≠ Mode.Leader)
    (hterm : s.state.current_term ≤ m.term)
    (happ : s.state.log.append_entries m.prev_log_index m.prev_log_term m.entries = some log2) :
    (match s.handle_message peer (some (Message.AppendEntriesReq m)) with
     | .ok s2 =>
         s2.state.current_term = m.term ∧
         s2.state.current_leader = some m.leader ∧
         s2.state.log = log2 ∧
         s2.state.commit_index =
           (if m.leader_commit > s.state.commit_index then min m.leader_commit log2.len
            else s.state.commit_index) ∧
         s2.sent = s.sent ++ [(peer, Message.AppendEntriesRep
           { term := m.term, next_index := log2.len + 1, success := true })]
     | .error _ => False) := by
  have hdec : decide (s.state.current_term ≤ m.term) = true := decide_eq_true hterm
  cases hm : s.state.mode with
  | Leader => exact absurd hm hmode
  | Follower =>
      simp [ServerInner.handle_message, hm, hdec, happ,
        ServerInner.start_election_timeout, ServerInner.send_to]
  | Candidate =>
      by_cases he : s.election_timeout = true <;>
        simp [ServerInner.handle_message, hm, hdec, happ, he,
          ServerInner.change_mode, ServerInner.start_election_timeout,
          ServerInner.stop_election_timeout, ServerInner.send_to]

/-- Claim C6 witness: the spec's follower-replicate scenario - Follower at
term 5, log [(1,a),(3,b),(5,c)], commit_index 2, receiving
AppendEntriesReq { term 6, leader 1, prev 3/5, entries [(5,x),(6,y)],
leader_commit 3 }. -/
theorem c6_append_entries_success_witness :
    (c6_server.state.mode ≠ Mode.Leader ∧
     c6_server.state.current_term ≤ c6_msg.term ∧
     c6_server.state.log.append_entries c6_msg.prev_log_index c6_msg.prev_log_term
       c6_msg.entries = some c6_log2) ∧
    (match c6_server.handle_message 1 (some (Message.AppendEntriesReq c6_msg)) with
     | .ok s2 =>
         s2.state.current_term = c6_msg.term ∧
         s2.state.current_leader = some c6_msg.leader ∧
         s2.state.log = c6_log2 ∧
         s2.state.commit_index =
           (if c6_msg.leader_commit > c6_server.state.commit_index
            then min c6_msg.leader_commit c6_log2.len
            else c6_server.state.commit_index) ∧
         s2.sent = c6_server.sent ++ [(1, Message.AppendEntriesRep
           { term := c6_msg.term, next_index := c6_log2.len + 1, success := true })]
     | .error _ => False) :=
  ⟨⟨by decide, by decide, by decide⟩,
   c6_append_entries_success c6_server 1 c6_msg c6_log2 (by decide) (by decide) (by decide)⟩

/-- Claim C8 (amended): when a Leader handles a success reply whose next_index
lies between 1 and log.length() + 1 (as every honest peer's reply does), the
per-peer invariant match_index[p] < next_index[p] ≤ log.length() + 1 is
preserved; values outside that range violate it (see the counterexample). -/
theorem c8_leader_indices_invariant_preserved (st : RaftState) (peer : Nat)
    (m : AppendEntriesRep)
    (hmode : st.mode = Mode.Leader) (hsucc : m.success = true)
    (hlen1 : st.next_index.length = st.network_size)
    (hlen2 : st.match_index.length = st.network_size)
    (hpeer : peer < st.network_size)
    (hinv : leaderInvariant st)
    (h1 : 1 ≤ m.next_index) (h2 : m.next_index ≤ st.log.len + 1) :
    ∃ st2, handle_append_entries_rep st peer m = Except.ok (st2, []) ∧
      leaderInvariant st2 := by
  refine ⟨{ st with
      next_index := st.next_index.set peer m.next_index
      match_index := st.match_index.set peer (m.next_index - 1) }, ?_, ?_⟩
  · simp only [handle_append_entries_rep, hmode, hsucc, ne_eq, not_true_eq_false,
      if_false, if_true]
  · intro p hp
    show (st.match_index.set peer (m.next_index - 1)).getD p 0 <
        (st.next_index.set peer m.next_index).getD p 0 ∧
      (st.next_index.set peer m.next_index).getD p 0 ≤ st.log.len + 1
    by_cases hpq : peer = p
    · subst hpq
      rw [getD_set_self _ _ _ _ (by rw [hlen2]; exact hpeer),
        getD_set_self _ _ _ _ (by rw [hlen1]; exact hpeer)]
      exact ⟨Nat.sub_lt (Nat.lt_of_lt_of_le Nat.zero_lt_one h1) Nat.zero_lt_one, h2⟩
    · rw [getD_set_ne _ _ _ _ _ hpq, getD_set_ne _ _ _ _ _ hpq]
      exact hinv p hp

/-- Claim C8 amended-theorem witness: a freshly initialized 2-node leader
receiving a well-formed success reply with next_index = 1. -/
theorem c8_leader_indices_invariant_preserved_witness :
    (c8_state.mode = Mode.Leader ∧ c8w_msg.success = true ∧
     c8_state.next_index.length = c8_state.network_size ∧
     c8_state.match_index.length = c8_state.network_size ∧
     1 < c8_state.network_size ∧
     leaderInvariant c8_state ∧
     1 ≤ c8w_msg.next_index ∧ c8w_msg.next_index ≤ c8_state.log.len + 1) ∧
    ∃ st2, handle_append_entries_rep c8_state 1 c8w_msg = Except.ok (st2, []) ∧
      leaderInvariant st2 :=
  ⟨⟨rfl, rfl, rfl, rfl, by decide, by (unfold leaderInvariant; decide), by decide, by decide⟩,
   c8_leader_indices_invariant_preserved c8_state 1 c8w_msg rfl rfl rfl rfl (by decide)
     (by unfold leaderInvariant; decide) (by decide) (by decide)⟩

/-!  Machinery for claim C10: through the public interface the server's mode
never becomes Leader (ServerInner.change_mode is never invoked with
Mode.Leader - becoming leader is the unimplemented RequestVoteRep arm), so
the CallElection timer can never fire while the node is a Leader. -/

theorem mode_start_election {s s2 : ServerInner} (h : s.start_election = Except.ok s2) :
    s2.state.mode = s.state.mode := by
  unfold ServerInner.start_election at h
  split at h
  · simp at h
  · have h2 := Except.ok.inj h
    subst h2
    rw [state_start_election_timeout, state_foldl_send_to]

theorem change_mode_follower_to_candidate {s s2 : ServerInner}
    (hm : s.state.mode = Mode.Follower)
    (h : s.change_mode Mode.Candidate = Except.ok s2) :
    s2.state.mode = Mode.Candidate := by
  unfold ServerInner.change_mode at h
  rw [hm] at h
  simp only [reduceCtorEq, if_false] at h
  have h2 := mode_start_election h
  rw [h2, state_stop_election_timeout]

theorem handle_control_preserves_not_leader {s s2 : ServerInner} {c : Control} {stop : Bool}
    (h : s.handle_control c = Except.ok (stop, s2)) (hm : s.state.mode ≠ Mode.Leader) :
    s2.state.mode ≠ Mode.Leader := by
  cases c with
  | Stop =>
      have h2 := Except.ok.inj h
      cases h2
      exact hm
  | Add item =>
      unfold ServerInner.handle_control at h
      dsimp only at h
      split at h
      · have h2 := Except.ok.inj h
        cases h2
        exact hm
      · next hcond => exact absurd hm hcond

theorem handle_timer_preserves_not_leader {s s2 : ServerInner} {t : Timer}
    (h : s.handle_timer t = Except.ok s2) (hm : s.state.mode ≠ Mode.Leader) :
    s2.state.mode ≠ Mode.Leader := by
  cases t with
  | FollowerUpdate p =>
      have h2 := Except.ok.inj h
      subst h2
      rw [state_send_append_entries]
      exact hm
  | CallElection =>
      unfold ServerInner.handle_timer at h
      dsimp only at h
      cases hmode : s.state.mode with
      | Leader => exact absurd hmode hm
      | Follower =>
          simp only [hmode] at h
          have h2 := change_mode_follower_to_candidate
            (s := { s with election_timeout := false }) hmode h
          rw [h2]
          simp
      | Candidate =>
          simp only [hmode] at h
          have h2 := mode_start_election h
          rw [h2]
          exact hm

theorem handle_message_preserves_not_leader {s s2 : ServerInner} {peer : Nat}
    {msg : Option Message}
    (h : s.handle_message peer msg = Except.ok s2) (hm : s.state.mode ≠ Mode.Leader) :
    s2.state.mode ≠ Mode.Leader := by
  cases msg with
  | none => simp [ServerInner.handle_message] at h
  | some message =>
      cases message with
      | RequestVoteRep m =>
          have h2 := Except.ok.inj h
          subst h2
          exact hm
      | RequestVoteReq m =>
          unfold ServerInner.handle_message at h
          dsimp only at h
          have h2 := Except.ok.inj h
          subst h2
          exact hm
      | AppendEntriesRep m =>
          unfold ServerInner.handle_message at h
          dsimp only at h
          rw [show handle_append_entries_rep s.state peer m = Except.ok (s.state, []) from by
            unfold handle_append_entries_rep
            rw [if_pos hm]] at h
          dsimp only at h
          have h2 := Except.ok.inj h
          subst h2
          exact hm
      | AppendEntriesReq m =>
          unfold ServerInner.handle_message at h
          cases hmode : s.state.mode with
          | Leader => exact absurd hmode hm
          | Follower =>
              cases hsucc : decide (s.state.current_term ≤ m.term) with
              | false =>
                  simp [hmode, hsucc, ServerInner.start_election_timeout,
                    ServerInner.send_to] at h
                  rw [← h]
                  simp [hmode]
              | true =>
                  cases happ : s.state.log.append_entries m.prev_log_index m.prev_log_term
                      m.entries with
                  | none =>
                      simp [hmode, hsucc, happ, ServerInner.start_election_timeout,
                        ServerInner.send_to] at h
                      rw [← h]
                      simp [hmode]
                  | some log2 =>
                      simp [hmode, hsucc, happ, ServerInner.start_election_timeout,
                        ServerInner.send_to] at h
                      rw [← h]
                      simp [hmode]
          | Candidate =>
              cases hsucc : decide (s.state.current_term ≤ m.term) with
              | false =>
                  simp [hmode, hsucc, ServerInner.send_to] at h
                  rw [← h]
                  simp [hmode]
              | true =>
                  cases happ : s.state.log.append_entries m.prev_log_index m.prev_log_term
                      m.entries with
                  | none =>
                      simp [hmode, hsucc, happ, ServerInner.send_to] at h
                      rw [← h]
                      simp [hmode]
                  | some log2 =>
                      by_cases he : s.election_timeout = true <;>
                        simp [hmode, hsucc, happ, he, ServerInner.change_mode,
                          ServerInner.stop_election_timeout,
                          ServerInner.start_election_timeout, ServerInner.send_to] at h <;>
                        rw [← h] <;>
                        simp

theorem step_preserves_not_leader {s s2 : ServerInner} {e : Event}
    (h : stepFn s e = Outcome.Continue s2) (hm : s.state.mode ≠ Mode.Leader) :
    s2.state.mode ≠ Mode.Leader := by
  cases e with
  | Ctl c =>
      unfold stepFn at h
      dsimp only at h
      cases hc : s.handle_control c with
      | error f => rw [hc] at h; simp at h
      | ok p =>
          obtain ⟨stop, s3⟩ := p
          rw [hc] at h
          cases stop with
          | false =>
              simp at h
              subst h
              exact handle_control_preserves_not_leader hc hm
          | true => simp at h
  | Msg peer msg =>
      unfold stepFn at h
      dsimp only at h
      cases hmsg : s.handle_message peer msg with
      | error f => rw [hmsg] at h; simp at h
      | ok s3 =>
          rw [hmsg] at h
          simp at h
          subst h
          exact handle_message_preserves_not_leader hmsg hm
  | Tmr t =>
      unfold stepFn at h
      dsimp only at h
      cases ht : (popTimer s t).handle_timer t with
      | error f => rw [ht] at h; simp at h
      | ok s3 =>
          rw [ht] at h
          simp at h
          subst h
          exact handle_timer_preserves_not_leader ht
            (by rw [state_popTimer]; exact hm)

/-- Through the public interface (no test-only SetState) the node is never in
Leader mode: no reachable code path invokes a transition to Leader, because
counting votes - the only path to leadership - is unimplemented. -/
theorem reach_not_leader {node_id network_size : Nat} {s : ServerInner}
    (h : Reach node_id network_size s) : s.state.mode ≠ Mode.Leader := by
  induction h with
  | init => simp [initialServer]
  | step _ _ hs ih => exact step_preserves_not_leader hs ih

theorem call_election_not_unreachable {s : ServerInner} (hm : s.state.mode ≠ Mode.Leader) :
    stepFn s (Event.Tmr Timer.CallElection) ≠ Outcome.Panicked Failure.Unreachable := by
  cases hmode : s.state.mode with
  | Leader => exact absurd hmode hm
  | Follower =>
      intro hcontra
      by_cases he : s.election_timeout = true <;>
        simp [stepFn, popTimer, ServerInner.handle_timer, hmode, he, ServerInner.change_mode,
          ServerInner.start_election, ServerInner.stop_election_timeout,
          ServerInner.start_election_timeout, ServerInner.send_to] at hcontra
  | Candidate =>
      intro hcontra
      simp [stepFn, popTimer, ServerInner.handle_timer, hmode, ServerInner.start_election,
        ServerInner.start_election_timeout, ServerInner.send_to] at hcontra

/-- Claim C10: in every state reachable through the public interface, a node
in Leader mode has no outstanding CallElection timer (vacuously, since Leader
mode is unreachable: the vote-counting path to leadership is unimplemented),
and handling a CallElection expiration never reaches the branch the source
marks unreachable!. -/
theorem c10_no_election_timer_as_leader {node_id network_size : Nat} {s : ServerInner}
    (h : Reach node_id network_size s) :
    (s.state.mode = Mode.Leader → s.electionQueued = 0) ∧
    stepFn s (Event.Tmr Timer.CallElection) ≠ Outcome.Panicked Failure.Unreachable := by
  have hm := reach_not_leader h
  exact ⟨fun hl => absurd hl hm, call_election_not_unreachable hm⟩

/-- Claim C10 witness: the initial server is reachable. -/
theorem c10_no_election_timer_as_leader_witness :
    ((initialServer 0 2).state.mode = Mode.Leader → (initialServer 0 2).electionQueued = 0) ∧
    stepFn (initialServer 0 2) (Event.Tmr Timer.CallElection) ≠
      Outcome.Panicked Failure.Unreachable :=
  c10_no_election_timer_as_leader Reach.init

end Raft
